import Mathlib

/-! Packet framing of `prot_conn.go`.

A shallow embedding of `open`, `Conn.readPacket`, `Conn.writePacket` and
`Conn.resetSeqno` of `src/prot_conn.go`, and theorems about the packet
header, the sequence number, the size check and the opening of a connection.

Conventions of the embedding.

* A `uint8` is a `Fin 256`: its arithmetic wraps modulo 256, as `c.seqno++`
  does in Go.
* Go's `int` is taken to be 64 bits wide, so that `payloadLength + 4` and
  `int(c.p.maxPacketSize)` never overflow; they are natural numbers here.
* The fields `conn`, `buff` and `rw` of `Conn` are declared with types that
  live outside `prot_conn.go` (`net.Conn`, `buffer`, the interface
  `readWriter`).  Their joint state is one value of an arbitrary type `σ`
  (field `net`), and the methods the source calls on them are the fields of
  `Env σ`, arbitrary state transformers on `σ`.  The methods are assumed not
  to touch the other fields of `Conn`.  What `open` calls (`dial`, `New`,
  `init`, the handshake) is in `OpenEnv σ` in the same way; the handshake may
  change every field of `Conn`.
* A Go call either returns or panics; `writePacket` is the only function here
  that can panic (an index out of range), which is `none`.
-/

namespace ProtConn

/-- A Go `byte` / `uint8`. -/
abbrev byte := Fin 256

/-- The conversion `byte(v)` of an unsigned integer: the low 8 bits. -/
def toByte (v : Nat) : byte := ⟨v % 256, Nat.mod_lt v (by decide)⟩

/-- The two error codes `prot_conn.go` passes to `myError`. -/
inductive errCode where
  | ErrNetPacketTooLarge
  | ErrNetPacketsOutOfOrder
  deriving DecidableEq, Repr

/-- A Go `error` value: either built by `myError` from an error code, or any
other error (of the buffer, the adapter, the transport), told apart by a tag. -/
inductive error where
  | myError (code : errCode)
  | other (tag : Nat)
  deriving DecidableEq, Repr

export errCode (ErrNetPacketTooLarge ErrNetPacketsOutOfOrder)
export error (myError)

/-- Modelled from the spec: the type `properties` is declared outside
`prot_conn.go`; these are the options of the spec's configuration surface that
the functions here read (`maxPacketSize`, `clientCapabilities`) or pass on
(`address`, `socket`). -/
structure properties where
  address : String
  socket : String
  maxPacketSize : Nat
  clientCapabilities : Nat
  deriving DecidableEq, Repr

/-- The struct `Conn`.  `net` stands for the three fields `conn`, `buff` and
`rw`. -/
structure Conn (σ : Type) where
  p : properties
  net : σ
  seqno : byte
  affectedRows : Nat
  lastInsertId : Nat
  statusFlags : Nat
  warnings : Nat
  e : Option error
  serverVersion : String
  connectionId : Nat
  serverCapabilities : Nat
  serverCharset : byte
  authPluginData : List byte
  authPluginName : String
  clientCharset : byte
  deriving DecidableEq, Repr

/-- What `prot_conn.go` uses and does not declare.

* `CLIENT_COMPRESS` is the constant `_CLIENT_COMPRESS`, the compression
  capability flag.
* `Reset st n` is `c.buff.Reset(n)`: an error, or a window of `n` bytes.
* `read st n` is `c.rw.read(b, n)` on a window `b` of `n` bytes: an error, or
  the `n` bytes that `b` holds afterwards.
* `write st b` is `c.rw.write(b)`.
* `reset st` is `c.rw.reset()`. -/
structure Env (σ : Type) where
  CLIENT_COMPRESS : Nat
  Reset : σ → Nat → Option error × σ
  read : σ → (n : Nat) → Except error { b : List byte // b.length = n } × σ
  write : σ → List byte → Option error × σ
  reset : σ → σ

/-- Modelled from the spec: `getUint24` is declared outside `prot_conn.go`;
it decodes a 3-byte little-endian unsigned integer. -/
def getUint24 (b : List byte) : Nat :=
  (b.getD 0 0).val + 256 * (b.getD 1 0).val + 65536 * (b.getD 2 0).val

/-- Modelled from the spec: `putUint24` is declared outside `prot_conn.go`;
it stores the low 24 bits of `v`, little-endian, in the first three bytes of
`b`, in place. -/
def putUint24 (b : List byte) (v : Nat) : List byte :=
  ((b.set 0 (toByte v)).set 1 (toByte (v / 256))).set 2 (toByte (v / 65536))

/-- The method `Conn.readPacket`: the returned pair `([]byte, error)` and the
connection afterwards. -/
def readPacket {σ : Type} (env : Env σ) (c : Conn σ) :
    Except error (List byte) × Conn σ :=
  -- first read the packet header
  match env.Reset c.net 4 with
  | (some err, st1) => (.error err, { c with net := st1 })
  | (none, st1) =>
    match env.read st1 4 with
    | (.error err, st2) => (.error err, { c with net := st2 })
    | (.ok b, st2) =>
      let payloadLength := getUint24 (b.val.take 3)
      if c.p.clientCapabilities &&& env.CLIENT_COMPRESS = 0 ∧
          payloadLength + 4 > c.p.maxPacketSize then
        (.error (myError ErrNetPacketTooLarge), { c with net := st2 })
      else if c.seqno ≠ b.val.getD 3 0 then
        (.error (myError ErrNetPacketsOutOfOrder), { c with net := st2 })
      else
        -- increment the packet sequence number
        let c1 : Conn σ := { c with net := st2, seqno := c.seqno + 1 }
        -- finally, read the payload
        match env.Reset c1.net payloadLength with
        | (some err, st3) => (.error err, { c1 with net := st3 })
        | (none, st3) =>
          match env.read st3 payloadLength with
          | (.error err, st4) => (.error err, { c1 with net := st4 })
          | (.ok b, st4) => (.ok (b.val.take payloadLength), { c1 with net := st4 })

/-- The method `Conn.writePacket`: `none` when the call panics (`b[3]` with
`len(b) < 4`); otherwise the returned `error` (`none` for `nil`), the
connection afterwards and the caller's buffer afterwards. -/
def writePacket {σ : Type} (env : Env σ) (c : Conn σ) (b : List byte) :
    Option (Option error × Conn σ × List byte) :=
  if b.length < 4 then none
  else
    let payloadLength := b.length - 4
    -- populate the packet header
    let b1 := putUint24 b (payloadLength % 2 ^ 32)
    let b2 := b1.set 3 c.seqno
    -- write it to the connection
    match env.write c.net b2 with
    | (some err, st1) => some (some err, { c with net := st1 }, b2)
    | (none, st1) =>
      -- finally, increment the packet sequence number
      some (none, { c with net := st1, seqno := c.seqno + 1 }, b2)

/-- The method `Conn.resetSeqno`. -/
def resetSeqno {σ : Type} (env : Env σ) (c : Conn σ) : Conn σ :=
  { c with seqno := 0, net := env.reset c.net }

/-- One call of a method of the buffer or of the adapter. -/
inductive Call where
  | Reset (n : Nat)
  | read (n : Nat)
  | write (b : List byte)
  | reset
  deriving DecidableEq, Repr

/-- The environment `env` with a log: every call of `Reset`, `read`, `write`
and `reset` is appended to the second component of the state, and otherwise
behaves as in `env`. -/
def traced {σ : Type} (env : Env σ) : Env (σ × List Call) where
  CLIENT_COMPRESS := env.CLIENT_COMPRESS
  Reset st n := ((env.Reset st.1 n).1, ((env.Reset st.1 n).2, st.2 ++ [Call.Reset n]))
  read st n := ((env.read st.1 n).1, ((env.read st.1 n).2, st.2 ++ [Call.read n]))
  write st b := ((env.write st.1 b).1, ((env.write st.1 b).2, st.2 ++ [Call.write b]))
  reset st := (env.reset st.1, st.2 ++ [Call.reset])

/-- The two ends of a byte stream seen from one connection: `inp` holds the
bytes the peer has sent and that are not read yet, `out` the bytes written so
far. -/
structure Pipe where
  inp : List byte
  out : List byte
  deriving DecidableEq, Repr

/-- Modelled from the spec: the loop-backed transport of the spec's testable
properties, with the default adapter and a buffer that always grows.  The
transport is a byte-oriented, ordered, reliable stream: a read of exactly `n`
bytes delivers the next `n` bytes of `inp`, or fails (short read) when fewer
are left; a write appends the whole buffer to `out`. -/
def loopback (flag : Nat) : Env Pipe where
  CLIENT_COMPRESS := flag
  Reset st _ := (none, st)
  read st n :=
    if h : n ≤ st.inp.length then
      (.ok ⟨st.inp.take n, by simp [h]⟩, { st with inp := st.inp.drop n })
    else (.error (error.other 0), st)
  write st b := (none, { st with out := st.out ++ b })
  reset st := st

/-- A connection as `open` creates it, before the handshake: every field of
`Conn` is zero but `p` and the transport. -/
def newConn {σ : Type} (p : properties) (st : σ) : Conn σ :=
  { p := p, net := st, seqno := 0, affectedRows := 0, lastInsertId := 0,
    statusFlags := 0, warnings := 0, e := none, serverVersion := "",
    connectionId := 0, serverCapabilities := 0, serverCharset := 0,
    authPluginData := [], authPluginName := "", clientCharset := 0 }

/-- The connection of the scenario of C2: `maxPacketSize = 1024`, no capability
flag set; the peer has sent a header announcing 2000 bytes (`2000 = 208 + 256 * 7`). -/
def tooLargeConn : Conn (Pipe × List Call) :=
  newConn ⟨"", "", 1024, 0⟩ (⟨[208, 7, 0, 0], []⟩, [])

/-- The connection of the counterexample to C3: `maxPacketSize = 1024`, no
capability flag set, sequence number 0; the peer has sent a header announcing
2000 bytes with sequence byte 1. -/
def outOfOrderConn : Conn Pipe :=
  newConn ⟨"", "", 1024, 0⟩ ⟨[208, 7, 0, 1], []⟩

/-- The connection of the boundary scenario of C5: `maxPacketSize = 6`, no
capability flag set, sequence number 0; the peer has sent the packet
`[2, 0, 0, 0, 65, 66]`, for which `L + 4 = maxPacketSize`. -/
def boundaryConn : Conn (Pipe × List Call) :=
  newConn ⟨"", "", 6, 0⟩ (⟨[2, 0, 0, 0, 65, 66], []⟩, [])

/-- An adapter with compression whose own size check rejects the packet:
every read returns `myError(ErrNetPacketTooLarge)`. -/
def rejectingAdapter : Env Unit where
  CLIENT_COMPRESS := 32
  Reset st _ := (none, st)
  read st _ := (.error (myError ErrNetPacketTooLarge), st)
  write st _ := (none, st)
  reset st := st

/-- The connection of the scenario of C10: `maxPacketSize = 4`, the compression
flag set, sequence number 0; the peer has sent the packet `[2, 0, 0, 0, 65, 66]`. -/
def compressConn : Conn Pipe :=
  newConn ⟨"", "", 4, 32⟩ ⟨[2, 0, 0, 0, 65, 66], []⟩

/-- The wire format of the spec, `[length:3 bytes little-endian][sequence:1
byte][payload]`, for a payload `p` and a sequence byte `s`. -/
def packet (s : byte) (p : List byte) : List byte :=
  toByte p.length :: toByte (p.length / 256) :: toByte (p.length / 65536) :: s :: p

/-- The wire format of consecutive packets numbered from `i`: the packet of the
`j`-th payload carries the sequence byte `(i + j) mod 256`. -/
def packets (i : Nat) : List (List byte) → List byte
  | [] => []
  | p :: ps => packet (toByte i) p ++ packets (i + 1) ps

/-- What a reader is expected to get from consecutive packets numbered from
`i`: each payload, with the sequence number `(i + j + 1) mod 256` of the reader
after the `j`-th read. -/
def expected (i : Nat) : List (List byte) → List (List byte × byte)
  | [] => []
  | p :: ps => (p, toByte (i + 1)) :: expected (i + 1) ps

/-- The connection `r` with `bytes` as the bytes sent by its peer. -/
def feed (r : Conn Pipe) (bytes : List byte) : Conn Pipe :=
  { r with net := { r.net with inp := bytes } }

/-- Consecutive calls of `writePacket`, one for each buffer; `none` as soon as a
call panics or returns an error. -/
def writePackets {σ : Type} (env : Env σ) (c : Conn σ) : List (List byte) → Option (Conn σ)
  | [] => some c
  | b :: bs =>
    match writePacket env c b with
    | some (none, c1, _) => writePackets env c1 bs
    | _ => none

/-- The first `k` calls of `readPacket`: the payloads returned, each with
the sequence number of the connection after the call; `none` as soon as a call
returns an error. -/
def readPackets {σ : Type} (env : Env σ) (c : Conn σ) :
    Nat → Option (List (List byte × byte) × Conn σ)
  | 0 => some ([], c)
  | k + 1 =>
    match readPacket env c with
    | (.ok p, c1) =>
      match readPackets env c1 k with
      | some (l, c2) => some ((p, c1.seqno) :: l, c2)
      | none => none
    | (.error _, _) => none

/-- The connection of the scenario of C7, after three packets are written:
sequence number 3. -/
def threeConn : Conn (Pipe × List Call) :=
  { newConn ⟨"", "", 1024, 0⟩
      (⟨[], [0, 0, 0, 0, 0, 0, 0, 1, 0, 0, 0, 2]⟩,
        [Call.write [0, 0, 0, 0], Call.write [0, 0, 0, 1], Call.write [0, 0, 0, 2]]) with
    seqno := 3 }

/-- The connection of the scenario of C7 after `resetSeqno` and one more
`writePacket`, of the buffer `[9, 9, 9, 9, 65]`. -/
def resetConn : Conn (Pipe × List Call) :=
  { threeConn with
    seqno := 1
    net := (⟨[], [0, 0, 0, 0, 0, 0, 0, 1, 0, 0, 0, 2, 1, 0, 0, 0, 65]⟩,
      threeConn.net.2 ++ [Call.reset, Call.write [1, 0, 0, 0, 65]]) }

/-- One read/write pair on a connection: a `readPacket` that succeeds followed
by a `writePacket` of `b` that succeeds when `readFirst`, the two in the other
order otherwise; `none` when one of the two calls fails. -/
def readWritePair {σ : Type} (env : Env σ) (c : Conn σ) (b : List byte)
    (readFirst : Bool) : Option (Conn σ) :=
  if readFirst then
    match readPacket env c with
    | (.ok _, c1) =>
      match writePacket env c1 b with
      | some (none, c2, _) => some c2
      | _ => none
    | (.error _, _) => none
  else
    match writePacket env c b with
    | some (none, c1, _) =>
      match readPacket env c1 with
      | (.ok _, c2) => some c2
      | (.error _, _) => none
    | _ => none

/-- Consecutive read/write pairs, with no `resetSeqno` in between; `none` when
a call fails. -/
def readWritePairs {σ : Type} (env : Env σ) (c : Conn σ) :
    List (List byte × Bool) → Option (Conn σ)
  | [] => some c
  | (b, readFirst) :: l =>
    match readWritePair env c b readFirst with
    | some c1 => readWritePairs env c1 l
    | none => none

/-- The connection of the scenarios of C8: sequence number 0; the peer has
sent three packets, with the sequence bytes 0, 2 and 4. -/
def pairsConn : Conn Pipe :=
  newConn ⟨"", "", 1024, 0⟩ ⟨[1, 0, 0, 0, 65, 1, 0, 0, 2, 66, 1, 0, 0, 4, 67], []⟩

/-- The connection of the scenarios of C9: sequence number 0; the peer has
sent the packet `[1, 0, 0, 0, 65]`, with the sequence byte 0. -/
def sharedConn : Conn Pipe :=
  newConn ⟨"", "", 1024, 0⟩ ⟨[1, 0, 0, 0, 65], []⟩

/-- The loop-backed transport with a buffer that cannot grow beyond `cap`
bytes: `Reset` to more than `cap` bytes returns an error. -/
def boundedBuffer (cap : Nat) : Env Pipe :=
  { loopback 32 with
    Reset := fun st n => if n ≤ cap then (none, st) else (some (error.other 1), st) }

/-- The loop-backed transport with the writing end closed: every write
returns an error and sends nothing. -/
def closedPipe : Env Pipe :=
  { loopback 32 with write := fun st _ => (some (error.other 2), st) }

/-- A connection on the loop-backed transport whose sequence number is 255. -/
def wrapConn : Conn Pipe :=
  { newConn ⟨"", "", 1024, 0⟩ ⟨[], []⟩ with seqno := 255 }

/-- A connection on the loop-backed transport as `open` creates it; nothing
has been sent by the peer. -/
def idleConn : Conn Pipe :=
  newConn ⟨"", "", 1024, 0⟩ ⟨[], []⟩

/-- A connection with a call log on the loop-backed transport, as `open`
creates it; nothing has been sent by the peer. -/
def idleTraced : Conn (Pipe × List Call) :=
  newConn ⟨"", "", 1024, 0⟩ (⟨[], []⟩, [])

/-- The connection of the counterexample to C14: `maxPacketSize = 1024`, no
capability flag set, sequence number 0; the peer has sent a header announcing
2000 bytes with sequence byte 0. -/
def oversizedConn : Conn Pipe :=
  newConn ⟨"", "", 1024, 0⟩ ⟨[208, 7, 0, 0], []⟩

/-- The connection of the scenarios of C16: `maxPacketSize = 1024`, no
capability flag set, sequence number 0; the peer has sent a header announcing
5 bytes with sequence byte 0, and one byte of payload only. -/
def shortConn : Conn Pipe :=
  newConn ⟨"", "", 1024, 0⟩ ⟨[5, 0, 0, 0, 65], []⟩

/-- A payload of `2 ^ 24` zero bytes, one byte more than the length field of a
header can announce. -/
def hugePayload : List byte := List.replicate (2 ^ 24) 0

/-- The method `Conn.readPacket` without its size check (lines 112 to 117 of
`prot_conn.go` left out): what the spec says `readPacket` does when
compression is negotiated, "this check is intentionally skipped here". -/
def readPacketUnchecked {σ : Type} (env : Env σ) (c : Conn σ) :
    Except error (List byte) × Conn σ :=
  match env.Reset c.net 4 with
  | (some err, st1) => (.error err, { c with net := st1 })
  | (none, st1) =>
    match env.read st1 4 with
    | (.error err, st2) => (.error err, { c with net := st2 })
    | (.ok b, st2) =>
      let payloadLength := getUint24 (b.val.take 3)
      if c.seqno ≠ b.val.getD 3 0 then
        (.error (myError ErrNetPacketsOutOfOrder), { c with net := st2 })
      else
        let c1 : Conn σ := { c with net := st2, seqno := c.seqno + 1 }
        match env.Reset c1.net payloadLength with
        | (some err, st3) => (.error err, { c1 with net := st3 })
        | (none, st3) =>
          match env.read st3 payloadLength with
          | (.error err, st4) => (.error err, { c1 with net := st4 })
          | (.ok b, st4) => (.ok (b.val.take payloadLength), { c1 with net := st4 })

/-! The size check and the ordering check of `readPacket` -/

theorem getUint24_cons (l0 l1 l2 : byte) (t : List byte) :
    getUint24 (l0 :: l1 :: l2 :: t) = l0.val + 256 * l1.val + 65536 * l2.val := rfl

/-- C2. With the compression flag absent from the client capabilities, a
header whose length `L` has `L + 4 > maxPacketSize` makes `readPacket` fail
with `myError(ErrNetPacketTooLarge)`; the connection is unchanged, and the
calls made are the buffer reset to 4 bytes and the read of the 4 header bytes,
nothing more. -/
theorem readPacket_too_large {σ : Type} (env : Env σ) (c : Conn (σ × List Call))
    (st1 st2 : σ) (l0 l1 l2 q : byte)
    (hreset : env.Reset c.net.1 4 = (none, st1))
    (hread : env.read st1 4 = (.ok ⟨[l0, l1, l2, q], rfl⟩, st2))
    (hcomp : c.p.clientCapabilities &&& env.CLIENT_COMPRESS = 0)
    (hbig : l0.val + 256 * l1.val + 65536 * l2.val + 4 > c.p.maxPacketSize) :
    readPacket (traced env) c =
      (.error (myError ErrNetPacketTooLarge),
        { c with net := (st2, c.net.2 ++ [Call.Reset 4, Call.read 4]) }) := by
  simp [readPacket, traced, hreset, hread, getUint24_cons, hcomp, hbig]

theorem readPacket_too_large_witness :
    2000 + 4 > tooLargeConn.p.maxPacketSize ∧
    readPacket (traced (loopback 32)) tooLargeConn =
      (.error (myError ErrNetPacketTooLarge),
        { tooLargeConn with net := (⟨[], []⟩, [Call.Reset 4, Call.read 4]) }) :=
  ⟨by decide,
   readPacket_too_large (loopback 32) tooLargeConn ⟨[208, 7, 0, 0], []⟩ ⟨[], []⟩
     208 7 0 0 rfl rfl (by decide) (by decide)⟩

/-- C3, as amended. When the header delivered carries a sequence byte `q`
different from the sequence number of the connection, `readPacket` fails and
leaves the connection (its sequence number included) as it was: with
`myError(ErrNetPacketTooLarge)` when the compression flag is absent and
`L + 4 > maxPacketSize`, with `myError(ErrNetPacketsOutOfOrder)` otherwise. -/
theorem readPacket_out_of_order {σ : Type} (env : Env σ) (c : Conn σ)
    (st1 st2 : σ) (l0 l1 l2 q : byte)
    (hreset : env.Reset c.net 4 = (none, st1))
    (hread : env.read st1 4 = (.ok ⟨[l0, l1, l2, q], rfl⟩, st2))
    (hseq : q ≠ c.seqno) :
    readPacket env c =
      (.error (myError
          (if c.p.clientCapabilities &&& env.CLIENT_COMPRESS = 0 ∧
              l0.val + 256 * l1.val + 65536 * l2.val + 4 > c.p.maxPacketSize
           then ErrNetPacketTooLarge else ErrNetPacketsOutOfOrder)),
        { c with net := st2 }) ∧
    (readPacket env c).2.seqno = c.seqno := by
  have hne : ¬ c.seqno = q := fun h => hseq h.symm
  by_cases hbig : c.p.clientCapabilities &&& env.CLIENT_COMPRESS = 0 ∧
      l0.val + 256 * l1.val + 65536 * l2.val + 4 > c.p.maxPacketSize
  · simp [readPacket, hreset, hread, getUint24_cons, hbig]
  · simp [readPacket, hreset, hread, getUint24_cons, hbig, hne]

theorem readPacket_out_of_order_witness :
    (1 : byte) ≠ outOfOrderConn.seqno ∧
    readPacket (loopback 32) outOfOrderConn =
      (.error (myError ErrNetPacketTooLarge), { outOfOrderConn with net := ⟨[], []⟩ }) ∧
    (readPacket (loopback 32) outOfOrderConn).2.seqno = outOfOrderConn.seqno :=
  ⟨by decide,
   readPacket_out_of_order (loopback 32) outOfOrderConn ⟨[208, 7, 0, 1], []⟩ ⟨[], []⟩
     208 7 0 1 rfl rfl (by decide)⟩

/-- C3 as stated fails: the header `[208, 7, 0, 1]` carries sequence byte 1
while the connection expects 0, and `readPacket` does not fail with
`myError(ErrNetPacketsOutOfOrder)` but with `myError(ErrNetPacketTooLarge)`,
the size check coming first. -/
theorem readPacket_out_of_order_counterexample :
    (loopback 32).read outOfOrderConn.net 4 =
      (.ok ⟨[208, 7, 0, 1], rfl⟩, ⟨[], []⟩) ∧
    (1 : byte) ≠ outOfOrderConn.seqno ∧
    (readPacket (loopback 32) outOfOrderConn).1 = .error (myError ErrNetPacketTooLarge) ∧
    (readPacket (loopback 32) outOfOrderConn).1 ≠
      .error (myError ErrNetPacketsOutOfOrder) := by
  refine ⟨rfl, by decide, rfl, ?_⟩
  intro h
  have h2 : (readPacket (loopback 32) outOfOrderConn).1 =
      .error (myError ErrNetPacketTooLarge) := rfl
  rw [h2] at h
  cases h

/-! A successful read -/

theorem seqno_succ (s : byte) : (s + 1).val = (s.val + 1) % 256 := by
  rw [Fin.val_add]; rfl

/-- C5. With sequence number `s` and a header `[l0, l1, l2, s]` delivered
whose length `L = l0 + 256 * l1 + 65536 * l2` has `L + 4 ≤ maxPacketSize`,
followed by `L` payload bytes, `readPacket` returns exactly these `L` bytes and
no error, has asked for 4 bytes and then for `L` bytes and nothing more, and
leaves the sequence number at `(s + 1) mod 256`, the other fields being
unchanged.  This holds whatever the capability flags are, so also with the
compression flag absent. -/
theorem readPacket_ok {σ : Type} (env : Env σ) (c : Conn (σ × List Call))
    (st1 st2 st3 st4 : σ) (l0 l1 l2 : byte)
    (payload : { b : List byte // b.length = l0.val + 256 * l1.val + 65536 * l2.val })
    (hreset1 : env.Reset c.net.1 4 = (none, st1))
    (hread1 : env.read st1 4 = (.ok ⟨[l0, l1, l2, c.seqno], rfl⟩, st2))
    (hfit : l0.val + 256 * l1.val + 65536 * l2.val + 4 ≤ c.p.maxPacketSize)
    (hreset2 : env.Reset st2 (l0.val + 256 * l1.val + 65536 * l2.val) = (none, st3))
    (hread2 : env.read st3 (l0.val + 256 * l1.val + 65536 * l2.val) = (.ok payload, st4)) :
    readPacket (traced env) c =
      (.ok payload.val,
        { c with
          net := (st4, c.net.2 ++ [Call.Reset 4, Call.read 4,
            Call.Reset (l0.val + 256 * l1.val + 65536 * l2.val),
            Call.read (l0.val + 256 * l1.val + 65536 * l2.val)])
          seqno := c.seqno + 1 }) ∧
    payload.val.length = l0.val + 256 * l1.val + 65536 * l2.val ∧
    (c.seqno + 1).val = (c.seqno.val + 1) % 256 := by
  refine ⟨?_, payload.property, seqno_succ _⟩
  have hfit2 : ¬ (c.p.maxPacketSize < l0.val + 256 * l1.val + 65536 * l2.val + 4) := by omega
  simp [readPacket, traced, hreset1, hread1, getUint24_cons, hfit2, hreset2, hread2,
    payload.property]

theorem readPacket_ok_witness :
    boundaryConn.p.clientCapabilities &&& (loopback 32).CLIENT_COMPRESS = 0 ∧
    2 + 4 ≤ boundaryConn.p.maxPacketSize ∧
    readPacket (traced (loopback 32)) boundaryConn =
      (.ok [65, 66],
        { boundaryConn with
          net := (⟨[], []⟩, [Call.Reset 4, Call.read 4, Call.Reset 2, Call.read 2])
          seqno := 1 }) :=
  ⟨by decide, by decide,
   (readPacket_ok (loopback 32) boundaryConn ⟨[2, 0, 0, 0, 65, 66], []⟩ ⟨[65, 66], []⟩
     ⟨[65, 66], []⟩ ⟨[], []⟩ 2 0 0 ⟨[65, 66], rfl⟩ rfl rfl (by decide) rfl rfl).1⟩

/-! The compression flag -/

/-- C10 as stated fails: with the compression flag among the client
capabilities, `readPacket` fails with `myError(ErrNetPacketTooLarge)` when the
adapter's read returns that error. -/
theorem readPacket_compress_counterexample :
    (newConn ⟨"", "", 1024, 32⟩ () : Conn Unit).p.clientCapabilities &&&
      rejectingAdapter.CLIENT_COMPRESS ≠ 0 ∧
    (readPacket rejectingAdapter (newConn ⟨"", "", 1024, 32⟩ ())).1 =
      .error (myError ErrNetPacketTooLarge) :=
  ⟨by decide, rfl⟩

/-- C10, as amended. With the compression flag among the client capabilities,
`readPacket` makes no size check of its own, whatever `maxPacketSize` is: it
is the same function as `readPacketUnchecked`, which has no such check.  It
fails with `myError(ErrNetPacketTooLarge)` exactly when one of the calls it
makes returns that very error: the buffer reset to 4 bytes; or, after that
reset, the read of the 4 header bytes; or, after a header that carries the
current sequence number and a length `L`, the buffer reset to `L` bytes or,
after that reset, the read of the `L` payload bytes.  A header that is read
and carries another sequence byte makes it fail as out of order, however
large `L` is.  And when the header delivered carries the current sequence
number and a length `L`, followed by `L` payload bytes, `readPacket` returns
these `L` bytes and no error. -/
theorem readPacket_compress {σ : Type} (env : Env σ) (c : Conn σ)
    (hcomp : c.p.clientCapabilities &&& env.CLIENT_COMPRESS ≠ 0) :
    readPacket env c = readPacketUnchecked env c ∧
    ((readPacket env c).1 = .error (myError ErrNetPacketTooLarge) ↔
      ((env.Reset c.net 4).1 = some (myError ErrNetPacketTooLarge) ∨
       ((env.Reset c.net 4).1 = none ∧
        (env.read (env.Reset c.net 4).2 4).1 = .error (myError ErrNetPacketTooLarge)) ∨
       (∃ (hdr : { b : List byte // b.length = 4 }) (st2 : σ),
        (env.Reset c.net 4).1 = none ∧
        env.read (env.Reset c.net 4).2 4 = (.ok hdr, st2) ∧
        hdr.val.getD 3 0 = c.seqno ∧
        ((env.Reset st2 (getUint24 (hdr.val.take 3))).1 =
            some (myError ErrNetPacketTooLarge) ∨
         ((env.Reset st2 (getUint24 (hdr.val.take 3))).1 = none ∧
          (env.read (env.Reset st2 (getUint24 (hdr.val.take 3))).2
            (getUint24 (hdr.val.take 3))).1 = .error (myError ErrNetPacketTooLarge)))))) ∧
    (∀ (st1 st2 : σ) (l0 l1 l2 q : byte),
      env.Reset c.net 4 = (none, st1) →
      env.read st1 4 = (.ok ⟨[l0, l1, l2, q], rfl⟩, st2) →
      q ≠ c.seqno →
      readPacket env c =
        (.error (myError ErrNetPacketsOutOfOrder), { c with net := st2 })) ∧
    (∀ (st1 st2 st3 st4 : σ) (l0 l1 l2 : byte)
      (payload : { b : List byte // b.length = l0.val + 256 * l1.val + 65536 * l2.val }),
      env.Reset c.net 4 = (none, st1) →
      env.read st1 4 = (.ok ⟨[l0, l1, l2, c.seqno], rfl⟩, st2) →
      env.Reset st2 (l0.val + 256 * l1.val + 65536 * l2.val) = (none, st3) →
      env.read st3 (l0.val + 256 * l1.val + 65536 * l2.val) = (.ok payload, st4) →
      readPacket env c =
        (.ok payload.val, { c with net := st4, seqno := c.seqno + 1 })) := by
  refine ⟨?_, ?_, ?_, ?_⟩
  · simp only [readPacket, readPacketUnchecked, hcomp, false_and, if_false]
  · rcases h1 : env.Reset c.net 4 with ⟨r1, st1⟩
    cases r1 with
    | some e => simp [readPacket, h1]
    | none =>
      dsimp only
      rcases h2 : env.read st1 4 with ⟨r2, st2⟩
      cases r2 with
      | error e => simp [readPacket, h1, h2]
      | ok hdr =>
        by_cases hq : c.seqno = hdr.val.getD 3 0
        · have hgo : ∀ e : error,
              (readPacket env c).1 = .error e →
              (e = myError ErrNetPacketTooLarge ↔
                ((env.Reset st2 (getUint24 (hdr.val.take 3))).1 =
                    some (myError ErrNetPacketTooLarge) ∨
                 ((env.Reset st2 (getUint24 (hdr.val.take 3))).1 = none ∧
                  (env.read (env.Reset st2 (getUint24 (hdr.val.take 3))).2
                    (getUint24 (hdr.val.take 3))).1 =
                      .error (myError ErrNetPacketTooLarge)))) →
              ((readPacket env c).1 = .error (myError ErrNetPacketTooLarge) ↔
                ((none : Option error) = some (myError ErrNetPacketTooLarge) ∨
                 ((none : Option error) = none ∧
                  (Except.ok hdr : Except error { b : List byte // b.length = 4 }) =
                    .error (myError ErrNetPacketTooLarge)) ∨
                 (∃ (hdr1 : { b : List byte // b.length = 4 }) (st : σ),
                  (none : Option error) = none ∧
                  ((Except.ok hdr, st2) :
                    Except error { b : List byte // b.length = 4 } × σ) = (.ok hdr1, st) ∧
                  hdr1.val.getD 3 0 = c.seqno ∧
                  ((env.Reset st (getUint24 (hdr1.val.take 3))).1 =
                      some (myError ErrNetPacketTooLarge) ∨
                   ((env.Reset st (getUint24 (hdr1.val.take 3))).1 = none ∧
                    (env.read (env.Reset st (getUint24 (hdr1.val.take 3))).2
                      (getUint24 (hdr1.val.take 3))).1 =
                        .error (myError ErrNetPacketTooLarge)))))) := by
            intro e hv hiff
            rw [hv]
            constructor
            · intro h
              have he : e = myError ErrNetPacketTooLarge := by simpa using h
              exact Or.inr (Or.inr ⟨hdr, st2, rfl, rfl, hq.symm, hiff.mp he⟩)
            · rintro (h | h | ⟨hdr1, st, _, heq, _, hin⟩)
              · cases h
              · cases h.2
              · simp only [Prod.mk.injEq, Except.ok.injEq] at heq
                obtain ⟨rfl, rfl⟩ := heq
                rw [hiff.mpr hin]
          rcases h3 : env.Reset st2 (getUint24 (hdr.val.take 3)) with ⟨r3, st3⟩
          cases r3 with
          | some e =>
            refine hgo e (by simp [readPacket, h1, h2, hcomp, hq, h3]) ?_
            rw [h3]
            simp
          | none =>
            rcases h4 : env.read st3 (getUint24 (hdr.val.take 3)) with ⟨r4, st4⟩
            cases r4 with
            | error e =>
              refine hgo e (by simp [readPacket, h1, h2, hcomp, hq, h3, h4]) ?_
              rw [h3]
              dsimp only
              rw [h4]
              simp
            | ok b =>
              have hv : (readPacket env c).1 = .ok (b.val.take (getUint24 (hdr.val.take 3))) := by
                simp [readPacket, h1, h2, hcomp, hq, h3, h4]
              rw [hv]
              constructor
              · intro h
                cases h
              · rintro (h | h | ⟨hdr1, st, _, heq, _, hin⟩)
                · cases h
                · cases h.2
                · simp only [Prod.mk.injEq, Except.ok.injEq] at heq
                  obtain ⟨rfl, rfl⟩ := heq
                  rw [h3] at hin
                  dsimp only at hin
                  rw [h4] at hin
                  simp at hin
        · have hq2 : ¬ hdr.val.getD 3 0 = c.seqno := fun h => hq h.symm
          have hv : (readPacket env c).1 = .error (myError ErrNetPacketsOutOfOrder) := by
            simp only [readPacket, h1, h2, hcomp, false_and, if_false, ne_eq, hq,
              not_false_eq_true, if_true]
          rw [hv]
          constructor
          · intro h
            cases h
          · rintro (h | h | ⟨hdr1, st, _, heq, hseq, _⟩)
            · cases h
            · cases h.2
            · simp only [Prod.mk.injEq, Except.ok.injEq] at heq
              obtain ⟨rfl, rfl⟩ := heq
              exact absurd hseq hq2
  · intro st1 st2 l0 l1 l2 q hreset1 hread1 hq
    have hne : ¬ c.seqno = q := fun h => hq h.symm
    simp [readPacket, hreset1, hread1, hcomp, hne]
  · intro st1 st2 st3 st4 l0 l1 l2 payload hreset1 hread1 hreset2 hread2
    simp [readPacket, hreset1, hread1, getUint24_cons, hcomp, hreset2, hread2,
      payload.property]

theorem readPacket_compress_witness :
    compressConn.p.clientCapabilities &&& (loopback 32).CLIENT_COMPRESS ≠ 0 ∧
    2 + 4 > compressConn.p.maxPacketSize ∧
    readPacket (loopback 32) compressConn =
      (.ok [65, 66], { compressConn with net := ⟨[], []⟩, seqno := 1 }) :=
  ⟨by decide, by decide,
   (readPacket_compress (loopback 32) compressConn (by decide)).2.2.2
     ⟨[2, 0, 0, 0, 65, 66], []⟩ ⟨[65, 66], []⟩ ⟨[65, 66], []⟩ ⟨[], []⟩ 2 0 0
     ⟨[65, 66], rfl⟩ rfl rfl rfl rfl⟩

/-! The header written by `writePacket` -/

theorem putUint24_set (b : List byte) (s : byte) (v : Nat) (h : 4 ≤ b.length) :
    (putUint24 b v).set 3 s =
      toByte v :: toByte (v / 256) :: toByte (v / 65536) :: s :: b.drop 4 := by
  match b, h with
  | _ :: _ :: _ :: _ :: t, _ => rfl
  | [], h => simp at h
  | [_], h => simp at h
  | [_, _], h => simp at h
  | [_, _, _], h => simp at h

theorem toByte_littleEndian (n : Nat) (h : n < 2 ^ 24) :
    (toByte n).val + 256 * (toByte (n / 256)).val + 65536 * (toByte (n / 65536)).val = n := by
  simp only [toByte]
  omega

/-- What `writePacket` does on a buffer of at least 4 bytes whose payload is
shorter than `2 ^ 24`: one call of the adapter's `write`, on the buffer
`[n, n / 256, n / 65536, seqno] ++ b[4:]` with `n = len(b) - 4`. -/
theorem writePacket_eq {σ : Type} (env : Env σ) (c : Conn σ) (b : List byte)
    (hlen : 4 ≤ b.length) (hsmall : b.length - 4 < 2 ^ 24) :
    writePacket env c b =
      some (match env.write c.net
          (toByte (b.length - 4) :: toByte ((b.length - 4) / 256) ::
            toByte ((b.length - 4) / 65536) :: c.seqno :: b.drop 4) with
        | (some err, st1) => (some err, { c with net := st1 },
            toByte (b.length - 4) :: toByte ((b.length - 4) / 256) ::
              toByte ((b.length - 4) / 65536) :: c.seqno :: b.drop 4)
        | (none, st1) => (none, { c with net := st1, seqno := c.seqno + 1 },
            toByte (b.length - 4) :: toByte ((b.length - 4) / 256) ::
              toByte ((b.length - 4) / 65536) :: c.seqno :: b.drop 4)) := by
  have hnl : ¬ b.length < 4 := by omega
  have hmod : (b.length - 4) % 2 ^ 32 = b.length - 4 := Nat.mod_eq_of_lt (by omega)
  simp only [writePacket, hnl, if_false, hmod, putUint24_set b c.seqno _ hlen]
  split <;> rfl

/-- C4. On a buffer `b` of at least 4 bytes whose payload length
`n = len(b) - 4` is below `2 ^ 24`, `writePacket` returns (does not panic) and
issues exactly one call of the adapter, a write of a buffer `w` with
`len(w) = len(b)`, whose first four bytes are `n mod 256`, `n / 256 mod 256`,
`n / 65536 mod 256` (the little-endian encoding of `n`) and the sequence
number, and whose bytes from offset 4 on are those of `b`. -/
theorem writePacket_header {σ : Type} (env : Env σ) (c : Conn (σ × List Call))
    (b : List byte) (hlen : 4 ≤ b.length) (hsmall : b.length - 4 < 2 ^ 24) :
    ∃ res c1 w, writePacket (traced env) c b = some (res, c1, w) ∧
      c1.net.2 = c.net.2 ++ [Call.write w] ∧
      w.length = b.length ∧
      w.take 4 = [toByte (b.length - 4), toByte ((b.length - 4) / 256),
        toByte ((b.length - 4) / 65536), c.seqno] ∧
      (toByte (b.length - 4)).val + 256 * (toByte ((b.length - 4) / 256)).val +
        65536 * (toByte ((b.length - 4) / 65536)).val = b.length - 4 ∧
      w.drop 4 = b.drop 4 := by
  rw [writePacket_eq _ c b hlen hsmall]
  have hl : (toByte (b.length - 4) :: toByte ((b.length - 4) / 256) ::
      toByte ((b.length - 4) / 65536) :: c.seqno :: b.drop 4).length = b.length := by
    simp; omega
  have hlog : ∀ w, ((traced env).write c.net w).2.2 = c.net.2 ++ [Call.write w] :=
    fun _ => rfl
  split
  · rename_i err st1 heq
    have h2 := hlog (toByte (b.length - 4) :: toByte ((b.length - 4) / 256) ::
      toByte ((b.length - 4) / 65536) :: c.seqno :: b.drop 4)
    rw [heq] at h2
    exact ⟨_, _, _, rfl, h2, hl, rfl, toByte_littleEndian _ hsmall, rfl⟩
  · rename_i st1 heq
    have h2 := hlog (toByte (b.length - 4) :: toByte ((b.length - 4) / 256) ::
      toByte ((b.length - 4) / 65536) :: c.seqno :: b.drop 4)
    rw [heq] at h2
    exact ⟨_, _, _, rfl, h2, hl, rfl, toByte_littleEndian _ hsmall, rfl⟩

theorem writePacket_header_witness :
    ∃ res c1 w,
      writePacket (traced (loopback 32)) (newConn ⟨"", "", 1024, 0⟩ (⟨[], []⟩, []))
        [9, 9, 9, 9, 65] = some (res, c1, w) ∧
      c1.net.2 = [] ++ [Call.write w] ∧
      w.length = 5 ∧
      w.take 4 = [toByte 1, toByte 0, toByte 0, 0] ∧
      (toByte 1).val + 256 * (toByte 0).val + 65536 * (toByte 0).val = 1 ∧
      w.drop 4 = [65] :=
  writePacket_header (loopback 32) (newConn ⟨"", "", 1024, 0⟩ (⟨[], []⟩, []))
    [9, 9, 9, 9, 65] (by decide) (by decide)

/-! Packets over the loop-backed transport -/

theorem toByte_succ (i : Nat) : toByte i + 1 = toByte (i + 1) := by
  apply Fin.ext
  rw [seqno_succ]
  simp only [toByte]
  omega

theorem toByte_val (s : byte) : toByte s.val = s := by
  apply Fin.ext
  simp only [toByte]
  exact Nat.mod_eq_of_lt s.isLt

theorem loopback_read (flag : Nat) (st : Pipe) (n : Nat)
    (b : { b : List byte // b.length = n }) (rest : List byte)
    (h : st.inp = b.val ++ rest) :
    (loopback flag).read st n = (.ok b, { st with inp := rest }) := by
  obtain ⟨b, rfl⟩ := b
  simp [loopback, h]

/-- What `readPacket` does when both buffer resets and both reads succeed and
the header passes the size check and the ordering check. -/
theorem readPacket_pass {σ : Type} (env : Env σ) (c : Conn σ)
    (st1 st2 st3 st4 : σ) (l0 l1 l2 : byte)
    (payload : { b : List byte // b.length = l0.val + 256 * l1.val + 65536 * l2.val })
    (hreset1 : env.Reset c.net 4 = (none, st1))
    (hread1 : env.read st1 4 = (.ok ⟨[l0, l1, l2, c.seqno], rfl⟩, st2))
    (hpass : ¬ (c.p.clientCapabilities &&& env.CLIENT_COMPRESS = 0 ∧
      l0.val + 256 * l1.val + 65536 * l2.val + 4 > c.p.maxPacketSize))
    (hreset2 : env.Reset st2 (l0.val + 256 * l1.val + 65536 * l2.val) = (none, st3))
    (hread2 : env.read st3 (l0.val + 256 * l1.val + 65536 * l2.val) = (.ok payload, st4)) :
    readPacket env c = (.ok payload.val, { c with net := st4, seqno := c.seqno + 1 }) := by
  simp only [readPacket, hreset1, hread1, List.take, getUint24_cons, hpass, if_false]
  simp [hreset2, hread2, payload.property]

theorem readPacket_loopback (flag : Nat) (c : Conn Pipe) (p rest : List byte)
    (hp : p.length < 2 ^ 24) (hinp : c.net.inp = packet c.seqno p ++ rest)
    (hpass : ¬ (c.p.clientCapabilities &&& flag = 0 ∧ p.length + 4 > c.p.maxPacketSize)) :
    readPacket (loopback flag) c =
      (.ok p, { c with net := { c.net with inp := rest }, seqno := c.seqno + 1 }) := by
  have hL := toByte_littleEndian p.length hp
  have h := readPacket_pass (loopback flag) c c.net { c.net with inp := p ++ rest }
    { c.net with inp := p ++ rest } { c.net with inp := rest }
    (toByte p.length) (toByte (p.length / 256)) (toByte (p.length / 65536))
    ⟨p, hL.symm⟩ rfl
    (loopback_read flag c.net 4
      ⟨[toByte p.length, toByte (p.length / 256), toByte (p.length / 65536), c.seqno], rfl⟩
      (p ++ rest) (by simp [hinp, packet]))
    (by rw [hL]; exact hpass) rfl
    (loopback_read flag _ _ ⟨p, hL.symm⟩ rest rfl)
  exact h

theorem writePacket_loopback (flag : Nat) (c : Conn Pipe) (b : List byte)
    (hlen : 4 ≤ b.length) (hsmall : b.length - 4 < 2 ^ 24) :
    writePacket (loopback flag) c b =
      some (none,
        { c with
          net := { c.net with out := c.net.out ++ packet c.seqno (b.drop 4) }
          seqno := c.seqno + 1 },
        packet c.seqno (b.drop 4)) := by
  rw [writePacket_eq _ c b hlen hsmall]
  simp [loopback, packet]

/-- C1. A writer with sequence number `s` calls `writePacket` on 4 header
bytes followed by a payload `p` shorter than `2 ^ 24`: the call succeeds and
appends `packet s p` to the stream.  A reader with sequence number `s` and
`maxPacketSize ≥ len(p) + 4` that is fed these bytes gets exactly `p` from
`readPacket`, with no error and no byte left.  Both connections end with the
sequence number `(s + 1) mod 256`.  (The size check passes whatever the
capability flags of the reader are, so also with the compression flag
absent.) -/
theorem writePacket_readPacket_roundtrip (fw fr : Nat) (w r : Conn Pipe)
    (hdr p : List byte) (s : byte)
    (hhdr : hdr.length = 4) (hp : p.length < 2 ^ 24)
    (hw : w.seqno = s) (hr : r.seqno = s)
    (hmax : p.length + 4 ≤ r.p.maxPacketSize) :
    writePacket (loopback fw) w (hdr ++ p) =
      some (none,
        { w with net := { w.net with out := w.net.out ++ packet s p }, seqno := s + 1 },
        packet s p) ∧
    readPacket (loopback fr) (feed r (packet s p)) =
      (.ok p, { r with net := { r.net with inp := [] }, seqno := s + 1 }) ∧
    (s + 1).val = (s.val + 1) % 256 := by
  have hdrop : (hdr ++ p).drop 4 = p := List.drop_left' hhdr
  have hlen : 4 ≤ (hdr ++ p).length := by simp [hhdr]
  have hsmall : (hdr ++ p).length - 4 < 2 ^ 24 := by simp [hhdr]; omega
  refine ⟨?_, ?_, seqno_succ s⟩
  · rw [writePacket_loopback fw w _ hlen hsmall, hdrop, hw]
  · have h := readPacket_loopback fr (feed r (packet s p)) p [] hp
      (by simp [feed, hr]) (by simp only [feed]; omega)
    rw [h]
    simp [feed, hr]

theorem writePacket_readPacket_roundtrip_witness :
    ([65, 66, 67] : List byte).length + 4 ≤ (newConn ⟨"", "", 1024, 0⟩ (⟨[], []⟩ : Pipe)).p.maxPacketSize ∧
    writePacket (loopback 32) { newConn ⟨"", "", 1024, 0⟩ ⟨[], []⟩ with seqno := 255 }
        ([0, 0, 0, 0] ++ [65, 66, 67]) =
      some (none,
        { newConn ⟨"", "", 1024, 0⟩ ⟨[], [3, 0, 0, 255, 65, 66, 67]⟩ with seqno := 0 },
        [3, 0, 0, 255, 65, 66, 67]) ∧
    readPacket (loopback 32)
        (feed { newConn ⟨"", "", 1024, 0⟩ ⟨[], []⟩ with seqno := 255 }
          [3, 0, 0, 255, 65, 66, 67]) =
      (.ok [65, 66, 67], { newConn ⟨"", "", 1024, 0⟩ ⟨[], []⟩ with seqno := 0 }) :=
  ⟨by decide,
   (writePacket_readPacket_roundtrip 32 32
      { newConn ⟨"", "", 1024, 0⟩ ⟨[], []⟩ with seqno := 255 }
      { newConn ⟨"", "", 1024, 0⟩ ⟨[], []⟩ with seqno := 255 }
      [0, 0, 0, 0] [65, 66, 67] 255 rfl (by decide) rfl rfl (by decide)).1,
   (writePacket_readPacket_roundtrip 32 32
      { newConn ⟨"", "", 1024, 0⟩ ⟨[], []⟩ with seqno := 255 }
      { newConn ⟨"", "", 1024, 0⟩ ⟨[], []⟩ with seqno := 255 }
      [0, 0, 0, 0] [65, 66, 67] 255 rfl (by decide) rfl rfl (by decide)).2.1⟩

/-! A stream of packets -/

theorem writePackets_loopback (flag : Nat) :
    ∀ (bufs : List (List byte)) (i : Nat) (c : Conn Pipe), c.seqno = toByte i →
      (∀ b ∈ bufs, 4 ≤ b.length ∧ b.length - 4 < 2 ^ 24) →
      writePackets (loopback flag) c bufs =
        some { c with
          net := { c.net with out := c.net.out ++ packets i (bufs.map (List.drop 4)) }
          seqno := toByte (i + bufs.length) } := by
  intro bufs
  induction bufs with
  | nil =>
    intro i c hc _
    simp [writePackets, packets, ← hc]
  | cons b bs ih =>
    intro i c hc hall
    have hb := hall b (List.mem_cons_self b bs)
    have hbs : ∀ x ∈ bs, 4 ≤ x.length ∧ x.length - 4 < 2 ^ 24 :=
      fun x hx => hall x (List.mem_cons_of_mem b hx)
    simp only [writePackets, writePacket_loopback flag c b hb.1 hb.2]
    rw [ih (i + 1) _ (by simp [hc, toByte_succ]) hbs]
    simp [packets, hc, Nat.add_assoc, Nat.add_comm 1 bs.length]

theorem readPackets_loopback (flag : Nat) :
    ∀ (ps : List (List byte)) (i : Nat) (c : Conn Pipe) (rest : List byte),
      c.seqno = toByte i → c.net.inp = packets i ps ++ rest →
      (∀ p ∈ ps, p.length < 2 ^ 24 ∧
        ¬ (c.p.clientCapabilities &&& flag = 0 ∧ p.length + 4 > c.p.maxPacketSize)) →
      readPackets (loopback flag) c ps.length =
        some (expected i ps,
          { c with net := { c.net with inp := rest }, seqno := toByte (i + ps.length) }) := by
  intro ps
  induction ps with
  | nil =>
    intro i c rest hc hinp _
    simp [readPackets, expected, ← hc, ← show c.net.inp = rest from by simpa [packets] using hinp]
  | cons p ps ih =>
    intro i c rest hc hinp hall
    have hp := hall p (List.mem_cons_self p ps)
    have hps : ∀ x ∈ ps, x.length < 2 ^ 24 ∧
        ¬ (c.p.clientCapabilities &&& flag = 0 ∧ x.length + 4 > c.p.maxPacketSize) :=
      fun x hx => hall x (List.mem_cons_of_mem p hx)
    have h1 := readPacket_loopback flag c p (packets (i + 1) ps ++ rest) hp.1
      (by simp [hinp, packets, hc]) hp.2
    have h2 := ih (i + 1)
      { c with net := { c.net with inp := packets (i + 1) ps ++ rest }, seqno := c.seqno + 1 }
      rest (by simp [hc, toByte_succ]) rfl hps
    simp only [List.length_cons, readPackets, h1]
    dsimp only at h2 ⊢
    rw [h2]
    simp [expected, hc, toByte_succ, Nat.add_assoc, Nat.add_comm 1 ps.length]

/-- C6. Buffers `bufs` (each with 4 header bytes and a payload shorter than
`2 ^ 24` that fits `maxPacketSize` of the reader), of any number, are written
in turn by `writePacket` on a connection with sequence number 0: every call
succeeds, and the bytes sent are the packets of the payloads in order, the
`i`-th carrying the sequence byte `i mod 256`.  A reader with sequence number
0 that calls `readPacket` as many times on these bytes gets no error and the
same payloads in the same order, its sequence number being `(i + 1) mod 256`
after the `i`-th read.  (The size check passes whatever the capability flags
of the reader are, so also with the compression flag absent.) -/
theorem writePackets_readPackets_stream (fw fr : Nat) (w r : Conn Pipe)
    (bufs : List (List byte))
    (hw : w.seqno = 0) (hr : r.seqno = 0)
    (hbufs : ∀ b ∈ bufs, 4 ≤ b.length ∧ b.length - 4 < 2 ^ 24 ∧
      b.length ≤ r.p.maxPacketSize) :
    writePackets (loopback fw) w bufs =
      some { w with
        net := { w.net with out := w.net.out ++ packets 0 (bufs.map (List.drop 4)) }
        seqno := toByte bufs.length } ∧
    readPackets (loopback fr) (feed r (packets 0 (bufs.map (List.drop 4)))) bufs.length =
      some (expected 0 (bufs.map (List.drop 4)),
        { r with net := { r.net with inp := [] }, seqno := toByte bufs.length }) := by
  constructor
  · have h := writePackets_loopback fw bufs 0 w (by rw [hw]; rfl)
      (fun b hb => ⟨(hbufs b hb).1, (hbufs b hb).2.1⟩)
    simpa using h
  · have h := readPackets_loopback fr (bufs.map (List.drop 4)) 0
      (feed r (packets 0 (bufs.map (List.drop 4)))) []
      (by simp only [feed, hr]; rfl) (by simp [feed])
      (by
        intro p hp
        obtain ⟨b, hb, rfl⟩ := List.mem_map.mp hp
        have hb3 := hbufs b hb
        refine ⟨by rw [List.length_drop]; exact hb3.2.1, ?_⟩
        rw [List.length_drop]
        simp only [feed]
        omega)
    simpa [feed] using h

theorem writePackets_readPackets_stream_witness :
    (∀ b ∈ ([[0, 0, 0, 0, 65], [0, 0, 0, 0, 66]] : List (List byte)),
      4 ≤ b.length ∧ b.length - 4 < 2 ^ 24 ∧
        b.length ≤ (newConn ⟨"", "", 1024, 0⟩ (⟨[], []⟩ : Pipe)).p.maxPacketSize) ∧
    writePackets (loopback 32) (newConn ⟨"", "", 1024, 0⟩ ⟨[], []⟩)
        [[0, 0, 0, 0, 65], [0, 0, 0, 0, 66]] =
      some { newConn ⟨"", "", 1024, 0⟩ ⟨[], [1, 0, 0, 0, 65, 1, 0, 0, 1, 66]⟩ with
        seqno := 2 } ∧
    readPackets (loopback 32)
        (feed (newConn ⟨"", "", 1024, 0⟩ ⟨[], []⟩) [1, 0, 0, 0, 65, 1, 0, 0, 1, 66]) 2 =
      some ([([65], 1), ([66], 2)],
        { newConn ⟨"", "", 1024, 0⟩ ⟨[], []⟩ with seqno := 2 }) :=
  ⟨by decide,
   writePackets_readPackets_stream 32 32 (newConn ⟨"", "", 1024, 0⟩ ⟨[], []⟩)
     (newConn ⟨"", "", 1024, 0⟩ ⟨[], []⟩) [[0, 0, 0, 0, 65], [0, 0, 0, 0, 66]]
     rfl rfl (by decide)⟩

/-! The sequence number -/

theorem writePacket_some {σ : Type} (env : Env σ) (c : Conn σ) (b : List byte)
    (res : Option error) (c1 : Conn σ) (w : List byte)
    (h : writePacket env c b = some (res, c1, w)) :
    4 ≤ b.length ∧ w[3]? = some c.seqno ∧ c1.p = c.p ∧
      c1.seqno = (if res = none then c.seqno + 1 else c.seqno) ∧
      res = (env.write c.net w).1 ∧ c1.net = (env.write c.net w).2 := by
  unfold writePacket at h
  split at h
  · cases h
  · rename_i hlen
    have hlen4 : 4 ≤ b.length := by omega
    simp only [putUint24_set b c.seqno _ hlen4] at h
    split at h
    · rename_i err st1 heq
      simp only [Option.some.injEq, Prod.mk.injEq] at h
      obtain ⟨h1, h2, h3⟩ := h
      subst h1 h2 h3
      exact ⟨hlen4, by simp, rfl, rfl, by rw [heq], by rw [heq]⟩
    · rename_i st1 heq
      simp only [Option.some.injEq, Prod.mk.injEq] at h
      obtain ⟨h1, h2, h3⟩ := h
      subst h1 h2 h3
      exact ⟨hlen4, by simp, rfl, rfl, by rw [heq], by rw [heq]⟩

theorem readPacket_seqno_of_ok {σ : Type} (env : Env σ) (c : Conn σ)
    (p : List byte) (c1 : Conn σ) (h : readPacket env c = (.ok p, c1)) :
    c1.seqno = c.seqno + 1 ∧ c1.p = c.p := by
  unfold readPacket at h
  split at h
  · simp at h
  · split at h
    · simp at h
    · dsimp only at h
      split at h
      · simp at h
      · split at h
        · simp at h
        · split at h
          · simp at h
          · split at h
            · simp at h
            · simp only [Prod.mk.injEq] at h
              obtain ⟨_, h2⟩ := h
              subst h2
              exact ⟨rfl, rfl⟩

/-- What `readPacket` does when the header read succeeds and the header fails
the size check or the ordering check. -/
theorem readPacket_reject {σ : Type} (env : Env σ) (c : Conn σ)
    (st1 st2 : σ) (l0 l1 l2 q : byte)
    (hreset : env.Reset c.net 4 = (none, st1))
    (hread : env.read st1 4 = (.ok ⟨[l0, l1, l2, q], rfl⟩, st2)) :
    (c.p.clientCapabilities &&& env.CLIENT_COMPRESS = 0 ∧
        l0.val + 256 * l1.val + 65536 * l2.val + 4 > c.p.maxPacketSize →
      readPacket env c = (.error (myError ErrNetPacketTooLarge), { c with net := st2 })) ∧
    (¬ (c.p.clientCapabilities &&& env.CLIENT_COMPRESS = 0 ∧
        l0.val + 256 * l1.val + 65536 * l2.val + 4 > c.p.maxPacketSize) →
      q ≠ c.seqno →
      readPacket env c = (.error (myError ErrNetPacketsOutOfOrder), { c with net := st2 })) := by
  constructor
  · intro hbig
    simp [readPacket, hreset, hread, getUint24_cons, hbig]
  · intro hpass hseq
    have hne : ¬ c.seqno = q := fun h => hseq h.symm
    simp only [readPacket, hreset, hread, List.take, getUint24_cons, hpass, if_false]
    simp [hne]

/-- C7. For every connection state, whatever its sequence number,
`resetSeqno` sets the sequence number to 0, calls the adapter's `reset` once
(the log gains exactly this call) and changes no other field.  Consequently
every `writePacket` that succeeds right after it hands the adapter a buffer
whose sequence byte is 0, and leaves the sequence number at 1. -/
theorem resetSeqno_then_writePacket {σ : Type} (env : Env σ)
    (c : Conn (σ × List Call)) :
    resetSeqno (traced env) c =
      { c with seqno := 0, net := (env.reset c.net.1, c.net.2 ++ [Call.reset]) } ∧
    (resetSeqno (traced env) c).seqno = 0 ∧
    (∀ (b : List byte) (c1 : Conn (σ × List Call)) (w : List byte),
      writePacket (traced env) (resetSeqno (traced env) c) b = some (none, c1, w) →
      w[3]? = some 0 ∧ c1.seqno = 1 ∧
      c1.net.2 = c.net.2 ++ [Call.reset, Call.write w]) := by
  refine ⟨rfl, rfl, ?_⟩
  intro b c1 w hwrite
  have h := writePacket_some _ _ _ _ _ _ hwrite
  refine ⟨h.2.1, ?_, ?_⟩
  · rw [h.2.2.2.1]; rfl
  · rw [h.2.2.2.2.2]
    simp [traced, resetSeqno]

theorem resetSeqno_then_writePacket_witness :
    writePackets (traced (loopback 32)) (newConn ⟨"", "", 1024, 0⟩ (⟨[], []⟩, []))
        [[0, 0, 0, 0], [0, 0, 0, 0], [0, 0, 0, 0]] = some threeConn ∧
    threeConn.seqno = 3 ∧
    resetSeqno (traced (loopback 32)) threeConn =
      { threeConn with
        seqno := 0
        net := ((loopback 32).reset threeConn.net.1, threeConn.net.2 ++ [Call.reset]) } ∧
    (resetSeqno (traced (loopback 32)) threeConn).seqno = 0 ∧
    writePacket (traced (loopback 32)) (resetSeqno (traced (loopback 32)) threeConn)
        [9, 9, 9, 9, 65] = some (none, resetConn, [1, 0, 0, 0, 65]) ∧
    (([1, 0, 0, 0, 65] : List byte)[3]? = some 0 ∧
    resetConn.seqno = 1 ∧
    resetConn.net.2 = threeConn.net.2 ++ [Call.reset, Call.write [1, 0, 0, 0, 65]]) :=
  ⟨rfl, rfl,
   (resetSeqno_then_writePacket (loopback 32) threeConn).1,
   (resetSeqno_then_writePacket (loopback 32) threeConn).2.1,
   rfl,
   (resetSeqno_then_writePacket (loopback 32) threeConn).2.2 [9, 9, 9, 9, 65] resetConn
     [1, 0, 0, 0, 65] rfl⟩

/-! Reads and writes on one connection -/

theorem readWritePair_seqno {σ : Type} (env : Env σ) (c c2 : Conn σ) (b : List byte)
    (readFirst : Bool) (h : readWritePair env c b readFirst = some c2) :
    c2.seqno = c.seqno + 1 + 1 := by
  unfold readWritePair at h
  split at h
  · split at h
    · rename_i p c1 hr
      split at h
      · rename_i c3 w hw
        have h1 := readPacket_seqno_of_ok env c p c1 hr
        have h2 := writePacket_some env c1 b none c3 w hw
        simp only [Option.some.injEq] at h
        subst h
        rw [h2.2.2.2.1, h1.1]; rfl
      · cases h
    · cases h
  · split at h
    · rename_i c1 w hw
      split at h
      · rename_i p c3 hr
        have h1 := writePacket_some env c b none c1 w hw
        have h2 := readPacket_seqno_of_ok env c1 p c3 hr
        simp only [Option.some.injEq] at h
        subst h
        rw [h2.1, h1.2.2.2.1]; rfl
      · cases h
    · cases h

theorem readWritePairs_seqno {σ : Type} (env : Env σ) :
    ∀ (l : List (List byte × Bool)) (c c1 : Conn σ),
      readWritePairs env c l = some c1 →
      c1.seqno.val = (c.seqno.val + 2 * l.length) % 256 := by
  intro l
  induction l with
  | nil =>
    intro c c1 h
    simp only [readWritePairs, Option.some.injEq] at h
    subst h
    simp [Nat.mod_eq_of_lt c.seqno.isLt]
  | cons x l ih =>
    intro c c1 h
    obtain ⟨b, readFirst⟩ := x
    simp only [readWritePairs] at h
    split at h
    · rename_i c2 hp
      have h1 := readWritePair_seqno env c c2 b readFirst hp
      have h2 := ih c2 c1 h
      have h3 : c2.seqno.val = (c.seqno.val + 2) % 256 := by
        rw [h1, seqno_succ, seqno_succ]; omega
      rw [h2, h3, List.length_cons]; omega
    · cases h

/-- C8, as amended. On a connection whose sequence number is 0, after `n`
read/write pairs that succeed (each pair one `readPacket` and one
`writePacket`, in either order), with no `resetSeqno` in between, the sequence
number is `2 * n mod 256`; this holds for every `n`, so for `n` in `[0, 255]`. -/
theorem readWritePairs_count {σ : Type} (env : Env σ) (c c1 : Conn σ)
    (l : List (List byte × Bool)) (n : Nat)
    (hzero : c.seqno = 0) (hn : l.length = n)
    (hrun : readWritePairs env c l = some c1) :
    c1.seqno.val = (2 * n) % 256 := by
  have h := readWritePairs_seqno env l c c1 hrun
  rw [h, hzero, hn]
  simp

theorem readWritePairs_count_witness :
    pairsConn.seqno = 0 ∧
    readWritePairs (loopback 32) pairsConn
        [([0, 0, 0, 0, 97], true), ([0, 0, 0, 0, 98], true), ([0, 0, 0, 0, 99], true)] =
      some { pairsConn with
        net := ⟨[], [1, 0, 0, 1, 97, 1, 0, 0, 3, 98, 1, 0, 0, 5, 99]⟩
        seqno := 6 } ∧
    (6 : byte).val = (2 * 3) % 256 :=
  ⟨rfl, rfl,
   readWritePairs_count (loopback 32) pairsConn
     { pairsConn with
        net := ⟨[], [1, 0, 0, 1, 97, 1, 0, 0, 3, 98, 1, 0, 0, 5, 99]⟩
        seqno := 6 }
     [([0, 0, 0, 0, 97], true), ([0, 0, 0, 0, 98], true), ([0, 0, 0, 0, 99], true)] 3
     rfl rfl rfl⟩

/-- C8 as stated fails at `n = 1`: after one read/write pair that succeeds, in
either order, on a connection whose sequence number is 0, the sequence number
is 2, not `1 mod 256`. -/
theorem readWritePairs_count_counterexample :
    pairsConn.seqno = 0 ∧
    (readWritePairs (loopback 32) pairsConn [([0, 0, 0, 0, 97], true)]).map
      (fun c1 => c1.seqno.val) = some 2 ∧
    (readWritePairs (loopback 32) (feed pairsConn [1, 0, 0, 1, 65])
      [([0, 0, 0, 0, 97], false)]).map (fun c1 => c1.seqno.val) = some 2 ∧
    2 ≠ 1 % 256 :=
  ⟨rfl, rfl, rfl, by decide⟩

/-- C9 as stated fails.  On `sharedConn` a `readPacket` accepts the header
with the sequence byte 0; after a `writePacket` that succeeds, `readPacket`
rejects this very header as out of order.  And a `writePacket` emits the
sequence byte 0; after a `readPacket` that succeeds, it emits 1. -/
theorem shared_seqno_counterexample :
    (readPacket (loopback 32) sharedConn).1 = .ok [65] ∧
    (writePacket (loopback 32) sharedConn [0, 0, 0, 0, 97]).map
      (fun r => (r.1, (readPacket (loopback 32) r.2.1).1)) =
      some (none, .error (myError ErrNetPacketsOutOfOrder)) ∧
    (writePacket (loopback 32) sharedConn [0, 0, 0, 0, 97]).map
      (fun r => (r.1, r.2.2)) = some (none, [1, 0, 0, 0, 97]) ∧
    (writePacket (loopback 32) (readPacket (loopback 32) sharedConn).2 [0, 0, 0, 0, 97]).map
      (fun r => (r.1, r.2.2)) = some (none, [1, 0, 0, 1, 97]) :=
  ⟨rfl, rfl, rfl, rfl⟩

/-- C9, as amended. Reads and writes share the one counter `seqno`.  After a
`writePacket` that succeeds on a connection with sequence number `s`, the
sequence number is `s + 1`, and the next `readPacket` rejects as out of order
every header (that passes the size check) whose sequence byte is not `s + 1`
and reads the payload of one whose sequence byte is `s + 1`.  After a
`readPacket` that succeeds, the sequence number is `s + 1`, and this is the
sequence byte the next `writePacket` emits. -/
theorem shared_seqno {σ : Type} (env : Env σ) (c : Conn σ) :
    (∀ (b : List byte) (c1 : Conn σ) (w : List byte),
      writePacket env c b = some (none, c1, w) →
      c1.seqno = c.seqno + 1 ∧
      ∀ (st1 st2 : σ) (l0 l1 l2 q : byte),
        env.Reset c1.net 4 = (none, st1) →
        env.read st1 4 = (.ok ⟨[l0, l1, l2, q], rfl⟩, st2) →
        ¬ (c1.p.clientCapabilities &&& env.CLIENT_COMPRESS = 0 ∧
          l0.val + 256 * l1.val + 65536 * l2.val + 4 > c1.p.maxPacketSize) →
        (q ≠ c.seqno + 1 →
          readPacket env c1 =
            (.error (myError ErrNetPacketsOutOfOrder), { c1 with net := st2 })) ∧
        (q = c.seqno + 1 →
          ∀ (st3 st4 : σ)
            (payload : { b : List byte // b.length = l0.val + 256 * l1.val + 65536 * l2.val }),
            env.Reset st2 (l0.val + 256 * l1.val + 65536 * l2.val) = (none, st3) →
            env.read st3 (l0.val + 256 * l1.val + 65536 * l2.val) = (.ok payload, st4) →
            readPacket env c1 =
              (.ok payload.val, { c1 with net := st4, seqno := c.seqno + 1 + 1 }))) ∧
    (∀ (p : List byte) (c1 : Conn σ),
      readPacket env c = (.ok p, c1) →
      c1.seqno = c.seqno + 1 ∧
      ∀ (b : List byte) (res : Option error) (c2 : Conn σ) (w : List byte),
        writePacket env c1 b = some (res, c2, w) → w[3]? = some (c.seqno + 1)) := by
  constructor
  · intro b c1 w hw
    have h1 : c1.seqno = c.seqno + 1 := by
      rw [(writePacket_some env c b none c1 w hw).2.2.2.1]; rfl
    refine ⟨h1, ?_⟩
    intro st1 st2 l0 l1 l2 q hreset hread hpass
    constructor
    · intro hq
      exact (readPacket_reject env c1 st1 st2 l0 l1 l2 q hreset hread).2 hpass
        (by rw [h1]; exact hq)
    · intro hq st3 st4 payload hreset2 hread2
      subst hq
      rw [← h1] at hread ⊢
      exact readPacket_pass env c1 st1 st2 st3 st4 l0 l1 l2 payload hreset hread hpass
        hreset2 hread2
  · intro p c1 hr
    have h1 := (readPacket_seqno_of_ok env c p c1 hr).1
    refine ⟨h1, ?_⟩
    intro b res c2 w hw
    rw [← h1]
    exact (writePacket_some env c1 b res c2 w hw).2.1

theorem shared_seqno_witness :
    writePacket (loopback 32) sharedConn [0, 0, 0, 0, 97] =
      some (none,
        { sharedConn with net := ⟨[1, 0, 0, 0, 65], [1, 0, 0, 0, 97]⟩, seqno := 1 },
        [1, 0, 0, 0, 97]) ∧
    (1 : byte) = sharedConn.seqno + 1 ∧
    readPacket (loopback 32) sharedConn =
      (.ok [65], { sharedConn with net := ⟨[], []⟩, seqno := 1 }) ∧
    (1 : byte) = sharedConn.seqno + 1 :=
  ⟨rfl,
   ((shared_seqno (loopback 32) sharedConn).1 [0, 0, 0, 0, 97]
      { sharedConn with net := ⟨[1, 0, 0, 0, 65], [1, 0, 0, 0, 97]⟩, seqno := 1 }
      [1, 0, 0, 0, 97] rfl).1,
   rfl,
   ((shared_seqno (loopback 32) sharedConn).2 [65]
      { sharedConn with net := ⟨[], []⟩, seqno := 1 } rfl).1⟩

/-! The outcomes of `writePacket` -/

/-- C11. On a buffer `b` of at least 4 bytes `writePacket` returns (it does not
panic) and makes one call of the adapter's `write`, on `b` with its header
populated.  If that call returns an error `e`, `writePacket` returns exactly
`e` and the sequence number is unchanged; if it succeeds, `writePacket`
returns no error and the sequence number `s` becomes `(s + 1) mod 256`.  As the
call of `write` has one of these two outcomes, there is no other. -/
theorem writePacket_outcome {σ : Type} (env : Env σ) (c : Conn σ) (b : List byte)
    (hlen : 4 ≤ b.length) :
    (∀ (e : error) (st : σ),
      env.write c.net ((putUint24 b ((b.length - 4) % 2 ^ 32)).set 3 c.seqno) = (some e, st) →
      writePacket env c b =
        some (some e, { c with net := st },
          (putUint24 b ((b.length - 4) % 2 ^ 32)).set 3 c.seqno)) ∧
    (∀ (st : σ),
      env.write c.net ((putUint24 b ((b.length - 4) % 2 ^ 32)).set 3 c.seqno) = (none, st) →
      writePacket env c b =
        some (none, { c with net := st, seqno := c.seqno + 1 },
          (putUint24 b ((b.length - 4) % 2 ^ 32)).set 3 c.seqno)) ∧
    (c.seqno + 1).val = (c.seqno.val + 1) % 256 ∧
    (c.seqno = 255 → c.seqno + 1 = 0) := by
  have hnl : ¬ b.length < 4 := by omega
  refine ⟨?_, ?_, seqno_succ _, ?_⟩
  · intro e st hw
    simp only [writePacket, hnl, if_false, hw]
  · intro st hw
    simp only [writePacket, hnl, if_false, hw]
  · intro h
    rw [h]
    rfl

theorem writePacket_outcome_witness :
    writePacket closedPipe idleConn [9, 9, 9, 9, 65] =
      some (some (error.other 2), idleConn, [1, 0, 0, 0, 65]) ∧
    writePacket (loopback 32) wrapConn [9, 9, 9, 9, 65] =
      some (none, { wrapConn with net := ⟨[], [1, 0, 0, 255, 65]⟩, seqno := 0 },
        [1, 0, 0, 255, 65]) :=
  ⟨(writePacket_outcome closedPipe idleConn [9, 9, 9, 9, 65] (by decide)).1
      (error.other 2) ⟨[], []⟩ rfl,
   (writePacket_outcome (loopback 32) wrapConn [9, 9, 9, 9, 65] (by decide)).2.1
      ⟨[], [1, 0, 0, 255, 65]⟩ rfl⟩

/-! The failures of `readPacket` -/

/-- C12. If the buffer reset to 4 bytes returns an error `e`, `readPacket`
returns exactly `e` and no payload, and that reset is the only call made; if
the reset succeeds and the adapter's read of the 4 header bytes returns an
error `e`, `readPacket` returns exactly `e` and no payload, and the calls made
are that reset and that read, nothing more (no second attempt, no payload
read).  In both cases the sequence number, like every field but the transport,
is unchanged. -/
theorem readPacket_header_failure {σ : Type} (env : Env σ) (c : Conn (σ × List Call)) :
    (∀ (e : error) (st1 : σ),
      env.Reset c.net.1 4 = (some e, st1) →
      readPacket (traced env) c =
        (.error e, { c with net := (st1, c.net.2 ++ [Call.Reset 4]) })) ∧
    (∀ (e : error) (st1 st2 : σ),
      env.Reset c.net.1 4 = (none, st1) →
      env.read st1 4 = (.error e, st2) →
      readPacket (traced env) c =
        (.error e, { c with net := (st2, c.net.2 ++ [Call.Reset 4, Call.read 4]) })) := by
  constructor
  · intro e st1 hreset
    simp [readPacket, traced, hreset]
  · intro e st1 st2 hreset hread
    simp [readPacket, traced, hreset, hread]

theorem readPacket_header_failure_witness :
    readPacket (traced (boundedBuffer 3)) idleTraced =
      (.error (error.other 1), { idleTraced with net := (⟨[], []⟩, [Call.Reset 4]) }) ∧
    readPacket (traced (loopback 32)) idleTraced =
      (.error (error.other 0),
        { idleTraced with net := (⟨[], []⟩, [Call.Reset 4, Call.read 4]) }) :=
  ⟨(readPacket_header_failure (boundedBuffer 3) idleTraced).1 (error.other 1) ⟨[], []⟩ rfl,
   (readPacket_header_failure (loopback 32) idleTraced).2 (error.other 0) ⟨[], []⟩ ⟨[], []⟩
     rfl rfl⟩

/-! The function `open` -/

theorem seqno_ne_succ (s : byte) : s ≠ s + 1 := by
  intro h
  have h1 := congrArg Fin.val h
  rw [seqno_succ] at h1
  omega

/-- C14 as stated fails in its parenthesis.  On `oversizedConn`, whose
sequence number is 0, a `writePacket` succeeds; the next `readPacket` gets the
header `[208, 7, 0, 0]`, which carries the sequence byte 0, and rejects it with
`myError(ErrNetPacketTooLarge)`, not as out of order. -/
theorem single_counter_counterexample :
    oversizedConn.seqno = 0 ∧
    (writePacket (loopback 32) oversizedConn [0, 0, 0, 0, 97]).map
      (fun r => (r.1, r.2.1.seqno, (loopback 32).read r.2.1.net 4)) =
      some (none, 1, (.ok ⟨[208, 7, 0, 0], rfl⟩, ⟨[], [1, 0, 0, 0, 97]⟩)) ∧
    (writePacket (loopback 32) oversizedConn [0, 0, 0, 0, 97]).map
      (fun r => (readPacket (loopback 32) r.2.1).1) =
      some (.error (myError ErrNetPacketTooLarge)) ∧
    (writePacket (loopback 32) oversizedConn [0, 0, 0, 0, 97]).map
      (fun r => (readPacket (loopback 32) r.2.1).1) ≠
      some (.error (myError ErrNetPacketsOutOfOrder)) := by
  refine ⟨rfl, rfl, rfl, ?_⟩
  intro h
  have h2 : (writePacket (loopback 32) oversizedConn [0, 0, 0, 0, 97]).map
      (fun r => (readPacket (loopback 32) r.2.1).1) =
      some (.error (myError ErrNetPacketTooLarge)) := rfl
  rw [h2] at h
  cases h

/-- C14, as amended. `readPacket` and `writePacket` use the same field
`seqno`.  After a `writePacket` that succeeds on a connection with sequence
number `s`, the next `readPacket` returns a payload only for a header whose
sequence byte is `s + 1`, and rejects a header that carries `s`, leaving the
connection as it was: as out of order when the header passes the size check,
as too large otherwise.  After a `readPacket` that succeeds on a connection
with sequence number `s`, the next `writePacket` emits the sequence byte
`(s + 1) mod 256`. -/
theorem single_counter {σ : Type} (env : Env σ) (c : Conn σ) :
    (∀ (b : List byte) (c1 : Conn σ) (w : List byte),
      writePacket env c b = some (none, c1, w) →
      ∀ (st1 st2 : σ) (l0 l1 l2 q : byte),
        env.Reset c1.net 4 = (none, st1) →
        env.read st1 4 = (.ok ⟨[l0, l1, l2, q], rfl⟩, st2) →
        (∀ (payload : List byte) (c2 : Conn σ),
          readPacket env c1 = (.ok payload, c2) → q = c.seqno + 1) ∧
        (q = c.seqno →
          readPacket env c1 =
            (.error (myError
              (if c1.p.clientCapabilities &&& env.CLIENT_COMPRESS = 0 ∧
                  l0.val + 256 * l1.val + 65536 * l2.val + 4 > c1.p.maxPacketSize
               then ErrNetPacketTooLarge else ErrNetPacketsOutOfOrder)),
              { c1 with net := st2 }))) ∧
    (∀ (payload : List byte) (c1 : Conn σ),
      readPacket env c = (.ok payload, c1) →
      ∀ (b : List byte) (res : Option error) (c2 : Conn σ) (w : List byte),
        writePacket env c1 b = some (res, c2, w) →
        ∃ s1 : byte, w[3]? = some s1 ∧ s1.val = (c.seqno.val + 1) % 256) := by
  constructor
  · intro b c1 w hw st1 st2 l0 l1 l2 q hreset hread
    have h1 : c1.seqno = c.seqno + 1 := by
      rw [(writePacket_some env c b none c1 w hw).2.2.2.1]; rfl
    have hrej := readPacket_reject env c1 st1 st2 l0 l1 l2 q hreset hread
    constructor
    · intro payload c2 hok
      by_contra hq
      by_cases hbig : c1.p.clientCapabilities &&& env.CLIENT_COMPRESS = 0 ∧
          l0.val + 256 * l1.val + 65536 * l2.val + 4 > c1.p.maxPacketSize
      · rw [hrej.1 hbig] at hok
        simp at hok
      · rw [hrej.2 hbig (by rw [h1]; exact hq)] at hok
        simp at hok
    · intro hq
      by_cases hbig : c1.p.clientCapabilities &&& env.CLIENT_COMPRESS = 0 ∧
          l0.val + 256 * l1.val + 65536 * l2.val + 4 > c1.p.maxPacketSize
      · rw [hrej.1 hbig, if_pos hbig]
      · rw [hrej.2 hbig (by rw [h1, hq]; exact seqno_ne_succ c.seqno), if_neg hbig]
  · intro payload c1 hr b res c2 w hw
    have h1 := (readPacket_seqno_of_ok env c payload c1 hr).1
    refine ⟨c.seqno + 1, ?_, seqno_succ _⟩
    rw [← h1]
    exact (writePacket_some env c1 b res c2 w hw).2.1

theorem single_counter_witness :
    writePacket (loopback 32) sharedConn [0, 0, 0, 0, 97] =
      some (none,
        { sharedConn with net := ⟨[1, 0, 0, 0, 65], [1, 0, 0, 0, 97]⟩, seqno := 1 },
        [1, 0, 0, 0, 97]) ∧
    readPacket (loopback 32)
        { sharedConn with net := ⟨[1, 0, 0, 0, 65], [1, 0, 0, 0, 97]⟩, seqno := 1 } =
      (.error (myError ErrNetPacketsOutOfOrder),
        { sharedConn with net := ⟨[65], [1, 0, 0, 0, 97]⟩, seqno := 1 }) ∧
    readPacket (loopback 32) sharedConn =
      (.ok [65], { sharedConn with net := ⟨[], []⟩, seqno := 1 }) ∧
    (∃ s1 : byte, ([1, 0, 0, 1, 97] : List byte)[3]? = some s1 ∧
      s1.val = (sharedConn.seqno.val + 1) % 256) :=
  ⟨rfl,
   ((single_counter (loopback 32) sharedConn).1 [0, 0, 0, 0, 97]
      { sharedConn with net := ⟨[1, 0, 0, 0, 65], [1, 0, 0, 0, 97]⟩, seqno := 1 }
      [1, 0, 0, 0, 97] rfl
      ⟨[1, 0, 0, 0, 65], [1, 0, 0, 0, 97]⟩ ⟨[65], [1, 0, 0, 0, 97]⟩ 1 0 0 0 rfl rfl).2 rfl,
   rfl,
   (single_counter (loopback 32) sharedConn).2 [65]
      { sharedConn with net := ⟨[], []⟩, seqno := 1 } rfl
      [0, 0, 0, 0, 97] none
      { sharedConn with net := ⟨[], [1, 0, 0, 1, 97]⟩, seqno := 2 }
      [1, 0, 0, 1, 97] rfl⟩

/-! The outcomes of `readPacket` once the header is read -/

/-- C16. When the header passes the size check and the ordering check, and
then the buffer reset to `L` bytes or the adapter's read of the `L` payload
bytes returns an error `e`, `readPacket` returns exactly `e` and no payload,
and the sequence number `s` of the connection has become `(s + 1) mod 256`,
which differs from `s`.  When `readPacket` fails earlier (at the reset to 4
bytes, at the header read, at the size check or at the ordering check), the
sequence number is unchanged. -/
theorem readPacket_payload_failure {σ : Type} (env : Env σ) (c : Conn σ) :
    (∀ (st1 st2 : σ) (l0 l1 l2 : byte),
      env.Reset c.net 4 = (none, st1) →
      env.read st1 4 = (.ok ⟨[l0, l1, l2, c.seqno], rfl⟩, st2) →
      ¬ (c.p.clientCapabilities &&& env.CLIENT_COMPRESS = 0 ∧
        l0.val + 256 * l1.val + 65536 * l2.val + 4 > c.p.maxPacketSize) →
      (∀ (e : error) (st3 : σ),
        env.Reset st2 (l0.val + 256 * l1.val + 65536 * l2.val) = (some e, st3) →
        readPacket env c = (.error e, { c with net := st3, seqno := c.seqno + 1 })) ∧
      (∀ (e : error) (st3 st4 : σ),
        env.Reset st2 (l0.val + 256 * l1.val + 65536 * l2.val) = (none, st3) →
        env.read st3 (l0.val + 256 * l1.val + 65536 * l2.val) = (.error e, st4) →
        readPacket env c = (.error e, { c with net := st4, seqno := c.seqno + 1 }))) ∧
    ((c.seqno + 1).val = (c.seqno.val + 1) % 256 ∧ c.seqno + 1 ≠ c.seqno) ∧
    (∀ (e : error) (st1 : σ),
      env.Reset c.net 4 = (some e, st1) →
      readPacket env c = (.error e, { c with net := st1 })) ∧
    (∀ (e : error) (st1 st2 : σ),
      env.Reset c.net 4 = (none, st1) →
      env.read st1 4 = (.error e, st2) →
      readPacket env c = (.error e, { c with net := st2 })) ∧
    (∀ (st1 st2 : σ) (l0 l1 l2 q : byte),
      env.Reset c.net 4 = (none, st1) →
      env.read st1 4 = (.ok ⟨[l0, l1, l2, q], rfl⟩, st2) →
      (c.p.clientCapabilities &&& env.CLIENT_COMPRESS = 0 ∧
        l0.val + 256 * l1.val + 65536 * l2.val + 4 > c.p.maxPacketSize) ∨ q ≠ c.seqno →
      (∃ e, (readPacket env c).1 = .error e) ∧ (readPacket env c).2 = { c with net := st2 }) := by
  refine ⟨?_, ⟨seqno_succ _, fun h => seqno_ne_succ c.seqno h.symm⟩, ?_, ?_, ?_⟩
  · intro st1 st2 l0 l1 l2 hreset hread hpass
    constructor
    · intro e st3 hreset2
      simp only [readPacket, hreset, hread, List.take, getUint24_cons, hpass, if_false]
      simp [hreset2]
    · intro e st3 st4 hreset2 hread2
      simp only [readPacket, hreset, hread, List.take, getUint24_cons, hpass, if_false]
      simp [hreset2, hread2]
  · intro e st1 hreset
    simp [readPacket, hreset]
  · intro e st1 st2 hreset hread
    simp [readPacket, hreset, hread]
  · intro st1 st2 l0 l1 l2 q hreset hread hfail
    have hrej := readPacket_reject env c st1 st2 l0 l1 l2 q hreset hread
    by_cases hbig : c.p.clientCapabilities &&& env.CLIENT_COMPRESS = 0 ∧
        l0.val + 256 * l1.val + 65536 * l2.val + 4 > c.p.maxPacketSize
    · rw [hrej.1 hbig]
      exact ⟨⟨_, rfl⟩, rfl⟩
    · have hq : q ≠ c.seqno := by
        cases hfail with
        | inl h => exact absurd h hbig
        | inr h => exact h
      rw [hrej.2 hbig hq]
      exact ⟨⟨_, rfl⟩, rfl⟩

theorem readPacket_payload_failure_witness :
    readPacket (boundedBuffer 4) shortConn =
      (.error (error.other 1), { shortConn with net := ⟨[65], []⟩, seqno := 1 }) ∧
    readPacket (loopback 32) shortConn =
      (.error (error.other 0), { shortConn with net := ⟨[65], []⟩, seqno := 1 }) :=
  ⟨((readPacket_payload_failure (boundedBuffer 4) shortConn).1 shortConn.net ⟨[65], []⟩
      5 0 0 rfl rfl (by decide)).1 (error.other 1) ⟨[65], []⟩ rfl,
   ((readPacket_payload_failure (loopback 32) shortConn).1 shortConn.net ⟨[65], []⟩
      5 0 0 rfl rfl (by decide)).2 (error.other 0) ⟨[65], []⟩ ⟨[65], []⟩ rfl rfl⟩

/-! Buffers of `2 ^ 24` bytes and more -/

theorem toByte_littleEndian_mod (v : Nat) :
    (toByte v).val + 256 * (toByte (v / 256)).val + 65536 * (toByte (v / 65536)).val =
      v % 2 ^ 24 := by
  simp only [toByte]
  omega

theorem uint32_mod_uint24 (n : Nat) : n % 2 ^ 32 % 2 ^ 24 = n % 2 ^ 24 :=
  Nat.mod_mod_of_dvd n (by norm_num)

/-- What `writePacket` does on the loop-backed transport on a buffer of at
least 4 bytes, of any length. -/
theorem writePacket_loopback_any (flag : Nat) (c : Conn Pipe) (b : List byte)
    (hlen : 4 ≤ b.length) :
    writePacket (loopback flag) c b =
      some (none,
        { c with
          net := { c.net with out := c.net.out ++
            (toByte ((b.length - 4) % 2 ^ 32) :: toByte ((b.length - 4) % 2 ^ 32 / 256) ::
              toByte ((b.length - 4) % 2 ^ 32 / 65536) :: c.seqno :: b.drop 4) }
          seqno := c.seqno + 1 },
        toByte ((b.length - 4) % 2 ^ 32) :: toByte ((b.length - 4) % 2 ^ 32 / 256) ::
          toByte ((b.length - 4) % 2 ^ 32 / 65536) :: c.seqno :: b.drop 4) := by
  have hnl : ¬ b.length < 4 := by omega
  simp only [writePacket, hnl, if_false, putUint24_set b c.seqno _ hlen]
  rfl

/-- What `readPacket` does on the loop-backed transport when the stream starts
with a header whose length field is `v mod 2 ^ 24` and holds at least as many
bytes after it. -/
theorem readPacket_loopback_any (flag : Nat) (c : Conn Pipe) (v : Nat) (p : List byte)
    (hinp : c.net.inp =
      toByte v :: toByte (v / 256) :: toByte (v / 65536) :: c.seqno :: p)
    (hle : v % 2 ^ 24 ≤ p.length)
    (hpass : ¬ (c.p.clientCapabilities &&& flag = 0 ∧
      v % 2 ^ 24 + 4 > c.p.maxPacketSize)) :
    readPacket (loopback flag) c =
      (.ok (p.take (v % 2 ^ 24)),
        { c with net := { c.net with inp := p.drop (v % 2 ^ 24) }, seqno := c.seqno + 1 }) := by
  have hL := toByte_littleEndian_mod v
  have hlenT : (p.take (v % 2 ^ 24)).length =
      (toByte v).val + 256 * (toByte (v / 256)).val + 65536 * (toByte (v / 65536)).val := by
    rw [hL, List.length_take]
    omega
  have h := readPacket_pass (loopback flag) c c.net { c.net with inp := p }
    { c.net with inp := p } { c.net with inp := p.drop (v % 2 ^ 24) }
    (toByte v) (toByte (v / 256)) (toByte (v / 65536))
    ⟨p.take (v % 2 ^ 24), hlenT⟩ rfl
    (loopback_read flag c.net 4
      ⟨[toByte v, toByte (v / 256), toByte (v / 65536), c.seqno], rfl⟩ p (by simp [hinp]))
    (by rw [hL]; exact hpass) rfl
    (loopback_read flag _ _ ⟨p.take (v % 2 ^ 24), hlenT⟩ (p.drop (v % 2 ^ 24))
      (by simp))
  exact h

/-- C17. `writePacket` makes no check of the length of its buffer.  On every
buffer `b` of at least 4 bytes, so also when `len(b) - 4 ≥ 2 ^ 24` or
`len(b) > maxPacketSize`, it returns what the adapter's `write` returns, after
one write of a buffer `wb` of all `len(b)` bytes whose header length field is
`(len(b) - 4) mod 2 ^ 24`.  On the loop-backed transport, for every payload `p`
of `2 ^ 24` bytes or more, the packet written has `len(p) + 4` bytes and a
length field `len(p) mod 2 ^ 24`, which is not `len(p)`; a reader with the same
sequence number, which that shorter length passes the size check of, gets from
`readPacket` the first `len(p) mod 2 ^ 24` bytes of `p`, which is not `p`. -/
theorem writePacket_no_length_check {σ : Type} (env : Env σ) (c : Conn (σ × List Call))
    (b : List byte) (fw fr : Nat) (w r : Conn Pipe) (hdr p : List byte)
    (hlen : 4 ≤ b.length) (hhdr : hdr.length = 4) (hbig : 2 ^ 24 ≤ p.length)
    (hseq : r.seqno = w.seqno)
    (hpass : ¬ (r.p.clientCapabilities &&& fr = 0 ∧
      p.length % 2 ^ 24 + 4 > r.p.maxPacketSize)) :
    (∃ res c1 wb, writePacket (traced env) c b = some (res, c1, wb) ∧
      res = (env.write c.net.1 wb).1 ∧
      c1.net.2 = c.net.2 ++ [Call.write wb] ∧
      wb.length = b.length ∧
      getUint24 (wb.take 3) = (b.length - 4) % 2 ^ 24) ∧
    (∃ w1 wire r1, writePacket (loopback fw) w (hdr ++ p) = some (none, w1, wire) ∧
      w1.net.out = w.net.out ++ wire ∧
      wire.length = p.length + 4 ∧
      getUint24 (wire.take 3) = p.length % 2 ^ 24 ∧
      getUint24 (wire.take 3) ≠ p.length ∧
      readPacket (loopback fr) (feed r wire) = (.ok (p.take (p.length % 2 ^ 24)), r1) ∧
      p.take (p.length % 2 ^ 24) ≠ p) := by
  have hnl : ¬ b.length < 4 := by omega
  constructor
  · have hW := putUint24_set b c.seqno ((b.length - 4) % 2 ^ 32) hlen
    have hl : (toByte ((b.length - 4) % 2 ^ 32) :: toByte ((b.length - 4) % 2 ^ 32 / 256) ::
        toByte ((b.length - 4) % 2 ^ 32 / 65536) :: c.seqno :: b.drop 4).length = b.length := by
      simp; omega
    have hfield : getUint24 ((toByte ((b.length - 4) % 2 ^ 32) ::
        toByte ((b.length - 4) % 2 ^ 32 / 256) ::
        toByte ((b.length - 4) % 2 ^ 32 / 65536) :: c.seqno :: b.drop 4).take 3) =
        (b.length - 4) % 2 ^ 24 := by
      simp only [List.take, getUint24_cons]
      rw [toByte_littleEndian_mod, uint32_mod_uint24]
    simp only [writePacket, hnl, if_false, hW]
    split
    · rename_i err st1 heq
      exact ⟨_, _, _, rfl, (congrArg Prod.fst heq).symm,
        (congrArg (fun x => x.2.2) heq).symm, hl, hfield⟩
    · rename_i st1 heq
      exact ⟨_, _, _, rfl, (congrArg Prod.fst heq).symm,
        (congrArg (fun x => x.2.2) heq).symm, hl, hfield⟩
  · have hdrop : (hdr ++ p).drop 4 = p := List.drop_left' hhdr
    have hlen2 : 4 ≤ (hdr ++ p).length := by simp [hhdr]
    have hsub : (hdr ++ p).length - 4 = p.length := by simp [hhdr]
    have hlt : p.length % 2 ^ 24 < 2 ^ 24 := Nat.mod_lt _ (by norm_num)
    have hfield : getUint24 ((toByte (p.length % 2 ^ 32) ::
        toByte (p.length % 2 ^ 32 / 256) ::
        toByte (p.length % 2 ^ 32 / 65536) :: w.seqno :: p).take 3) =
        p.length % 2 ^ 24 := by
      simp only [List.take, getUint24_cons]
      rw [toByte_littleEndian_mod, uint32_mod_uint24]
    have hread := readPacket_loopback_any fr
      (feed r (toByte (p.length % 2 ^ 32) :: toByte (p.length % 2 ^ 32 / 256) ::
        toByte (p.length % 2 ^ 32 / 65536) :: w.seqno :: p))
      (p.length % 2 ^ 32) p (by simp [feed, hseq])
      (by rw [uint32_mod_uint24]; omega)
      (by rw [uint32_mod_uint24]; simpa [feed] using hpass)
    rw [uint32_mod_uint24] at hread
    rw [writePacket_loopback_any fw w _ hlen2, hdrop, hsub]
    refine ⟨_, _, _, rfl, rfl, by simp, hfield, ?_, hread, ?_⟩
    · rw [hfield]; omega
    · intro h
      have h2 := congrArg List.length h
      rw [List.length_take] at h2
      omega

theorem hugePayload_length : hugePayload.length = 2 ^ 24 :=
  List.length_replicate _ _

theorem writePacket_no_length_check_witness :
    2 ^ 24 ≤ hugePayload.length ∧
    ¬ (idleConn.p.clientCapabilities &&& 32 = 0 ∧
      hugePayload.length % 2 ^ 24 + 4 > idleConn.p.maxPacketSize) ∧
    (∃ w1 wire r1,
      writePacket (loopback 32) idleConn ([0, 0, 0, 0] ++ hugePayload) =
        some (none, w1, wire) ∧
      w1.net.out = idleConn.net.out ++ wire ∧
      wire.length = hugePayload.length + 4 ∧
      getUint24 (wire.take 3) = hugePayload.length % 2 ^ 24 ∧
      getUint24 (wire.take 3) ≠ hugePayload.length ∧
      readPacket (loopback 32) (feed idleConn wire) =
        (.ok (hugePayload.take (hugePayload.length % 2 ^ 24)), r1) ∧
      hugePayload.take (hugePayload.length % 2 ^ 24) ≠ hugePayload) :=
  have hbig : 2 ^ 24 ≤ hugePayload.length := Nat.le_of_eq hugePayload_length.symm
  have hpass : ¬ (idleConn.p.clientCapabilities &&& 32 = 0 ∧
      hugePayload.length % 2 ^ 24 + 4 > idleConn.p.maxPacketSize) := by
    rw [hugePayload_length, Nat.mod_self]
    decide
  ⟨hbig, hpass,
   (writePacket_no_length_check (loopback 32) idleTraced [9, 9, 9, 9, 65] 32 32
      idleConn idleConn [0, 0, 0, 0] hugePayload (by decide) rfl hbig rfl hpass).2⟩

end ProtConn
